import Mathlib

/-!
Verification of the photonio asynchronous I/O core against its design
specification.

The development shallowly embeds the relevant Rust functions:

* `src/photonio-base/src/io/read.rs` — the `read_exact` / `read_exact_at`
  retry loops, embedded as total functions over a finite script of sub-read
  outcomes (the list of results the underlying single-shot `read` /
  `read_at` capability would return on successive invocations).
* `src/src/io/op.rs` — the typed operation constructors (`accept`, `open`,
  `read`, `write`, `connect`, `close`, `fsync`, `fdatasync`, `fstat`),
  embedded as functions of the submit outcome and the kernel-side completion
  data.
* `src/photonio-macros/src/lib.rs` — the entry-point attribute rewriting
  (`transform` and `Options::parse`), embedded over a simplified syntax
  model.
-/

set_option autoImplicit false
set_option linter.unusedVariables false

namespace Photonio

/-- Error kinds observable through `std::io::Error::kind()`; only the kinds
the sources mention are distinguished, every other kind is `other c`.
Operation futures map negative raw completion results to `os c`. -/
inductive ErrKind where
  | interrupted
  | unexpectedEof
  | invalidFilename
  | resourceExhausted
  | os (c : Nat)
  | other (c : Nat)
deriving DecidableEq

/-- One outcome of a single-shot `read`/`read_at` invocation: `ok n` is
`Ok(n)` (n bytes transferred), `err k` is `Err(e)` with `e.kind() = k`. -/
inductive ReadOutcome where
  | ok (n : Nat)
  | err (k : ErrKind)
deriving DecidableEq

/-- The result of a `read_exact`/`read_exact_at` call on a finite script.
`panicked` models Rust's index panic when a sub-read reports more bytes than
the unfilled window holds (`buf = &mut buf[n..]` with `n > buf.len()`);
`stuck` marks scripts too short to drive the loop to an exit, which lies
outside any real execution (a reader always returns something). -/
inductive ExactResult where
  | success
  | failed (k : ErrKind)
  | panicked
  | stuck
deriving DecidableEq

/-- Embedding of `ReadExt::read_exact` (read.rs lines 36–48) over a script of
sub-read outcomes.  The `Nat` argument is the length of the unfilled window
(`buf.len()`).  Returns the loop's result together with the trace of consumed
outcomes, each paired with the unfilled length at the moment the sub-read was
issued.  Loop body, in source order: `Ok(0)` fails with `UnexpectedEof`;
`Ok(n)` advances the window by `n`; `Err(e)` with kind `Interrupted` retries;
any other `Err(e)` propagates. -/
def readExactRun : List ReadOutcome → Nat → ExactResult × List (Nat × ReadOutcome)
  | _, 0 => (.success, [])
  | [], _ + 1 => (.stuck, [])
  | .ok n :: rest, r + 1 =>
    if n = 0 then (.failed .unexpectedEof, [(r + 1, .ok 0)])
    else if n ≤ r + 1 then
      ((readExactRun rest (r + 1 - n)).1,
        (r + 1, .ok n) :: (readExactRun rest (r + 1 - n)).2)
    else (.panicked, [(r + 1, .ok n)])
  | .err .interrupted :: rest, r + 1 =>
    ((readExactRun rest (r + 1)).1,
      (r + 1, .err .interrupted) :: (readExactRun rest (r + 1)).2)
  | .err k :: _, r + 1 => (.failed k, [(r + 1, .err k)])

/-- Embedding of `ReadAtExt::read_exact_at` (read.rs lines 79–94).  State is
the unfilled length and the explicit position counter `pos`; trace entries
record `(unfilled, pos, outcome)` per sub-read invocation.  Identical loop to
`read_exact` except `pos += n` after each successful sub-read. -/
def readExactAtRun :
    List ReadOutcome → Nat → Nat → ExactResult × List (Nat × Nat × ReadOutcome)
  | _, 0, _ => (.success, [])
  | [], _ + 1, _ => (.stuck, [])
  | .ok n :: rest, r + 1, p =>
    if n = 0 then (.failed .unexpectedEof, [(r + 1, p, .ok 0)])
    else if n ≤ r + 1 then
      ((readExactAtRun rest (r + 1 - n) (p + n)).1,
        (r + 1, p, .ok n) :: (readExactAtRun rest (r + 1 - n) (p + n)).2)
    else (.panicked, [(r + 1, p, .ok n)])
  | .err .interrupted :: rest, r + 1, p =>
    ((readExactAtRun rest (r + 1) p).1,
      (r + 1, p, .err .interrupted) :: (readExactAtRun rest (r + 1) p).2)
  | .err k :: _, r + 1, p => (.failed k, [(r + 1, p, .err k)])

/-- The lengths returned by the successful sub-reads in a `read_exact`
trace. -/
def okLens (tr : List (Nat × ReadOutcome)) : List Nat :=
  tr.filterMap fun e =>
    match e.2 with
    | .ok n => some n
    | .err _ => none

/-- Whether some sub-read in the trace returned `Ok(0)` (necessarily while
the buffer was unfilled: the loop only issues sub-reads then). -/
def hasZeroRead (tr : List (Nat × ReadOutcome)) : Bool :=
  tr.any fun e => e.2 = .ok 0

/-- Whether some sub-read in the trace failed with an error whose kind is
`UnexpectedEof` (a reader-produced error, propagated by the loop). -/
def hasEofErr (tr : List (Nat × ReadOutcome)) : Bool :=
  tr.any fun e => e.2 = .err .unexpectedEof

/-- Whether a `read_exact` trace retries every `Interrupted` sub-read with
the unfilled window unchanged: each consumed `Interrupted` outcome that is
followed by another sub-read is followed by one issued at the same unfilled
length. -/
def retryUnchanged : List (Nat × ReadOutcome) → Bool
  | (r, .err .interrupted) :: e :: tl =>
    (e.1 == r) && retryUnchanged (e :: tl)
  | _ :: tl => retryUnchanged tl
  | [] => true

/-- Whether a `read_exact_at` trace retries every `Interrupted` sub-read
with both the unfilled window and the position counter unchanged. -/
def retryUnchangedAt : List (Nat × Nat × ReadOutcome) → Bool
  | (r, p, .err .interrupted) :: e :: tl =>
    (e.1 == r) && (e.2.1 == p) && retryUnchangedAt (e :: tl)
  | _ :: tl => retryUnchangedAt tl
  | [] => true

/-- The `(position, length)` pairs of the sub-reads in a `read_exact_at`
trace that returned `Ok(n)`. -/
def okCalls (tr : List (Nat × Nat × ReadOutcome)) : List (Nat × Nat) :=
  tr.filterMap fun e =>
    match e.2.2 with
    | .ok n => some (e.2.1, n)
    | .err _ => none

/-- The positions `p, p + n1, p + n1 + n2, …` induced by starting position
`p` and successive transfer counts `n1, n2, …`. -/
def posSeq (p : Nat) : List Nat → List Nat
  | [] => []
  | n :: rest => p :: posSeq (p + n) rest

/-- One outcome of a single-shot byte-level read: `chunk data` delivers the
bytes `data` into the front of the unfilled window. -/
inductive ReadData where
  | chunk (data : List Nat)
  | err (k : ErrKind)
deriving DecidableEq

/-- Overwrite `buf[off .. off + data.length)` with `data`. -/
def writeAt (buf : List Nat) (off : Nat) (data : List Nat) : List Nat :=
  buf.take off ++ data ++ buf.drop (off + data.length)

/-- Byte-level embedding of `ReadExt::read_exact` (read.rs lines 36–48): the
same loop as `readExactRun`, additionally tracking the destination buffer's
contents.  `off` is the number of bytes already filled; each delivered chunk
is written at `off` and the window advances by its length. -/
def readExactBytes : List ReadData → List Nat → Nat → ExactResult × List Nat
  | [], buf, off => if buf.length ≤ off then (.success, buf) else (.stuck, buf)
  | .chunk data :: rest, buf, off =>
    if buf.length ≤ off then (.success, buf)
    else if data.length = 0 then (.failed .unexpectedEof, buf)
    else if data.length ≤ buf.length - off then
      readExactBytes rest (writeAt buf off data) (off + data.length)
    else (.panicked, buf)
  | .err .interrupted :: rest, buf, off =>
    if buf.length ≤ off then (.success, buf) else readExactBytes rest buf off
  | .err k :: _, buf, off =>
    if buf.length ≤ off then (.success, buf) else (.failed k, buf)

/-- Modelled from the spec: `crate::io::submit` is not under `src/` (op.rs
only calls it).  Per §4.1 it registers a completion slot and enqueues the
descriptor, or fails synchronously with `ResourceExhausted` when submission
capacity is exhausted. -/
inductive SubmitResult where
  | ok
  | exhausted
deriving DecidableEq

/-- Modelled from the spec: the shared `submit(sqe)?.await` shape of every
constructor in op.rs.  The op future itself is not under `src/`; per §4.2 a
failed `submit` propagates through `?` before the `.await` is reached, and a
successful one suspends until the driver delivers the raw completion result
`kres`, with negative raw results mapped to OS error codes.  Returns the
op's result and whether the `.await` was reached (i.e. whether the future
ever moved to `Pending` and suspended). -/
def submitAwait (s : SubmitResult) (kres : Int) : Except ErrKind Int × Bool :=
  match s with
  | .exhausted => (.error .resourceExhausted, false)
  | .ok => ((if kres < 0 then .error (.os (-kres).toNat) else .ok kres), true)

/-- Kernel-side data for one `accept` completion: the raw result (new
descriptor or negative errno) and the peer address the kernel writes into
the caller-supplied `sockaddr_storage` buffer and length slot during the
operation. -/
structure KernelAccept where
  res : Int
  peerBytes : List Nat
  peerLen : Nat
deriving DecidableEq

/-- Size in bytes of `libc::sockaddr_storage`. -/
def SOCKADDR_STORAGE_LEN : Nat := 128

/-- The kernel-filled contents of accept's address buffer after completion:
the peer bytes written over the zeroed storage, paired with the updated
length slot. -/
def kernelFilledAddr (k : KernelAccept) : List Nat × Nat :=
  (writeAt (List.replicate SOCKADDR_STORAGE_LEN 0) 0 k.peerBytes, k.peerLen)

/-- Embedding of `accept` (op.rs lines 15–31), in source order: `addr` is
`mem::zeroed()` and `addr_len` is `size_of::<sockaddr_storage>()`; the SQE
points at both; `SockAddr::init` then copies `addr`/`addr_len` into the
returned `sock_addr` BEFORE `submit(sqe)?.await` runs, so the copy sees the
pre-submission buffer contents, not what the kernel writes at completion
(`k.peerBytes`/`k.peerLen`).  On success the future resolves to
`(new fd, sock_addr)`. -/
def acceptOp (s : SubmitResult) (k : KernelAccept) :
    Except ErrKind (Int × (List Nat × Nat)) × Bool :=
  let addr := List.replicate SOCKADDR_STORAGE_LEN 0
  let addrLen := SOCKADDR_STORAGE_LEN
  let sockAddr := (addr, addrLen)
  ((submitAwait s k.res).1.map fun fd => (fd, sockAddr), (submitAwait s k.res).2)

/-- Embedding of `CString::new` on a byte slice: fails (with `NulError`) iff
the bytes contain a NUL, otherwise appends the terminating NUL. -/
def cstringNew (bytes : List Nat) : Except Unit (List Nat) :=
  if 0 ∈ bytes then .error () else .ok (bytes ++ [0])

/-- An `OpenAt` submission descriptor as built by `open`: the
null-terminated path bytes plus flags and mode. -/
structure OpenSqe where
  pathBytes : List Nat
  flags : Int
  mode : Nat
deriving DecidableEq

/-- Embedding of `open` (op.rs lines 40–54): `CString::new` runs on the path
bytes before the async block; inside it, a `NulError` becomes
`ErrorKind::InvalidFilename` via `?` before any SQE is built, so no
submission occurs.  Otherwise the `OpenAt` SQE carrying the null-terminated
path is submitted and awaited.  Returns the result, the list of descriptors
actually submitted to the driver, and whether the `.await` was reached. -/
def openOp (path : List Nat) (flags : Int) (mode : Nat) (s : SubmitResult)
    (kres : Int) : Except ErrKind Int × List OpenSqe × Bool :=
  match cstringNew path with
  | .error _ => (.error .invalidFilename, [], false)
  | .ok cpath =>
    match s with
    | .exhausted => (.error .resourceExhausted, [], false)
    | .ok =>
      ((if kres < 0 then .error (.os (-kres).toNat) else .ok kres),
        [⟨cpath, flags, mode⟩], true)

/-- Embedding of `read` (op.rs lines 63–68): `submit(sqe)?.await.map(|n| n as _)`. -/
def readOpRun (fd : Int) (bufLen : Nat) (s : SubmitResult) (kres : Int) :
    Except ErrKind Nat × Bool :=
  ((submitAwait s kres).1.map Int.toNat, (submitAwait s kres).2)

/-- Embedding of `write` (op.rs lines 70–75): same shape as `read`. -/
def writeOpRun (fd : Int) (bufLen : Nat) (s : SubmitResult) (kres : Int) :
    Except ErrKind Nat × Bool :=
  ((submitAwait s kres).1.map Int.toNat, (submitAwait s kres).2)

/-- Embedding of `connect` (op.rs lines 33–38): `submit(sqe)?.await.map(|_| ())`. -/
def connectOpRun (fd : Int) (addr : List Nat) (s : SubmitResult) (kres : Int) :
    Except ErrKind Unit × Bool :=
  ((submitAwait s kres).1.map fun _ => (), (submitAwait s kres).2)

/-- Embedding of `close` (op.rs lines 56–61): `submit(sqe)?.await.map(|_| ())`. -/
def closeOpRun (fd : Int) (s : SubmitResult) (kres : Int) :
    Except ErrKind Unit × Bool :=
  ((submitAwait s kres).1.map fun _ => (), (submitAwait s kres).2)

/-- Embedding of `fsync` (op.rs lines 91–96): `submit(sqe)?.await.map(|_| ())`. -/
def fsyncOpRun (fd : Int) (s : SubmitResult) (kres : Int) :
    Except ErrKind Unit × Bool :=
  ((submitAwait s kres).1.map fun _ => (), (submitAwait s kres).2)

/-- Embedding of `fdatasync` (op.rs lines 98–105): as `fsync` with the
`DATASYNC` flag on the SQE; the future shape is identical. -/
def fdatasyncOpRun (fd : Int) (s : SubmitResult) (kres : Int) :
    Except ErrKind Unit × Bool :=
  ((submitAwait s kres).1.map fun _ => (), (submitAwait s kres).2)

/-- Embedding of `fstat` (op.rs lines 77–89): a zeroed `statx` buffer is
bound to the SQE; unlike `accept`, the `.map(|_| stat)` closure reads the
buffer AFTER the await resolves, so the returned structure is the
kernel-filled one (`kstat`). -/
def fstatOpRun (fd : Int) (kstat : List Nat) (s : SubmitResult) (kres : Int) :
    Except ErrKind (List Nat) × Bool :=
  ((submitAwait s kres).1.map fun _ => kstat, (submitAwait s kres).2)

/-- A literal value in the attribute list of the entry-point macro: an
integer literal or any other literal form. -/
inductive LitVal where
  | int (v : Nat)
  | nonInt
deriving DecidableEq

/-- The recognized options of the entry-point macro
(photonio-macros/src/lib.rs lines 62–65). -/
structure Options where
  numThreads : Option Nat
deriving DecidableEq

/-- Embedding of the loop body of `Options::parse` (lib.rs lines 70–88):
each attribute must be named `num_threads` with an integer literal (later
entries overwrite earlier ones); any other name, or a non-integer literal,
fails. -/
def Options.parseLoop (opts : Options) : List (String × LitVal) → Option Options
  | [] => some opts
  | (name, lit) :: rest =>
    if name = "num_threads" then
      match lit with
      | .int v => Options.parseLoop { numThreads := some v } rest
      | .nonInt => none
    else none

/-- Embedding of `Options::parse` (lib.rs lines 70–88), starting from
`Options::default()` (`num_threads = None`). -/
def Options.parse (attrs : List (String × LitVal)) : Option Options :=
  Options.parseLoop { numThreads := none } attrs

/-- The input function item as the macro sees it: its asyncness and an
opaque tag standing for its block. -/
structure ItemFn where
  isAsync : Bool
  body : Nat
deriving DecidableEq

/-- The runtime-builder expression assembled by `transform`:
`photonio::runtime::Builder::new()`, optionally extended with
`.num_threads(v)`. -/
inductive RtExpr where
  | builderNew
  | numThreads (r : RtExpr) (v : Nat)
deriving DecidableEq

/-- The body expression generated by `transform`: `asyncBlock b` is
`async { <original block b> }`, and `buildBlockOn rt e` is
`rt.build().expect(..).block_on(e)` with `let block = e` inlined. -/
inductive GenBody where
  | asyncBlock (body : Nat)
  | buildBlockOn (rt : RtExpr) (arg : GenBody)
deriving DecidableEq

/-- The rewritten function item emitted by `transform`. -/
structure FnOut where
  hasTestAttr : Bool
  isAsync : Bool
  body : GenBody
deriving DecidableEq

/-- Embedding of `transform` (lib.rs lines 21–59): parse the options (an
error yields the error-token path, modelled as `none`); build
`Builder::new()` extended with `.num_threads(v)` exactly when the option was
parsed; clear the function's asyncness; replace its block by
`{ let block = async <block>; <rt>.build().expect(..).block_on(block) }`;
and prepend `#[test]` exactly when invoked as the test variant. -/
def transform (attr : List (String × LitVal)) (item : ItemFn)
    (is_test : Bool) : Option FnOut :=
  match Options.parse attr with
  | none => none
  | some opts =>
    let rt :=
      match opts.numThreads with
      | some v => RtExpr.numThreads .builderNew v
      | none => RtExpr.builderNew
    some
      { hasTestAttr := is_test, isAsync := false,
        body := .buildBlockOn rt (.asyncBlock item.body) }

/-! Unfolding lemmas for the two retry loops, one per source branch. -/

theorem readExactRun_zero (script : List ReadOutcome) :
    readExactRun script 0 = (.success, []) := by
  cases script with
  | nil => rfl
  | cons o rest => cases o with
    | ok n => rfl
    | err k => cases k <;> rfl

theorem readExactRun_nil_succ (r : Nat) :
    readExactRun [] (r + 1) = (.stuck, []) := rfl

theorem readExactRun_ok_zero (rest : List ReadOutcome) (r : Nat) :
    readExactRun (.ok 0 :: rest) (r + 1)
      = (.failed .unexpectedEof, [(r + 1, .ok 0)]) := by
  simp [readExactRun]

theorem readExactRun_ok_le (rest : List ReadOutcome) (n r : Nat)
    (h1 : n ≠ 0) (h2 : n ≤ r + 1) :
    readExactRun (.ok n :: rest) (r + 1)
      = ((readExactRun rest (r + 1 - n)).1,
          (r + 1, .ok n) :: (readExactRun rest (r + 1 - n)).2) := by
  simp [readExactRun, h1, h2]

theorem readExactRun_ok_gt (rest : List ReadOutcome) (n r : Nat)
    (h1 : n ≠ 0) (h2 : ¬ n ≤ r + 1) :
    readExactRun (.ok n :: rest) (r + 1) = (.panicked, [(r + 1, .ok n)]) := by
  simp [readExactRun, h1, h2]

theorem readExactRun_intr (rest : List ReadOutcome) (r : Nat) :
    readExactRun (.err .interrupted :: rest) (r + 1)
      = ((readExactRun rest (r + 1)).1,
          (r + 1, .err .interrupted) :: (readExactRun rest (r + 1)).2) := rfl

theorem readExactRun_err (rest : List ReadOutcome) (r : Nat) (k : ErrKind)
    (h : k ≠ .interrupted) :
    readExactRun (.err k :: rest) (r + 1) = (.failed k, [(r + 1, .err k)]) := by
  cases k <;> first | rfl | exact absurd rfl h

theorem readExactAtRun_zero (script : List ReadOutcome) (p : Nat) :
    readExactAtRun script 0 p = (.success, []) := by
  cases script with
  | nil => rfl
  | cons o rest => cases o with
    | ok n => rfl
    | err k => cases k <;> rfl

theorem readExactAtRun_nil_succ (r p : Nat) :
    readExactAtRun [] (r + 1) p = (.stuck, []) := rfl

theorem readExactAtRun_ok_zero (rest : List ReadOutcome) (r p : Nat) :
    readExactAtRun (.ok 0 :: rest) (r + 1) p
      = (.failed .unexpectedEof, [(r + 1, p, .ok 0)]) := by
  simp [readExactAtRun]

theorem readExactAtRun_ok_le (rest : List ReadOutcome) (n r p : Nat)
    (h1 : n ≠ 0) (h2 : n ≤ r + 1) :
    readExactAtRun (.ok n :: rest) (r + 1) p
      = ((readExactAtRun rest (r + 1 - n) (p + n)).1,
          (r + 1, p, .ok n) :: (readExactAtRun rest (r + 1 - n) (p + n)).2) := by
  simp [readExactAtRun, h1, h2]

theorem readExactAtRun_ok_gt (rest : List ReadOutcome) (n r p : Nat)
    (h1 : n ≠ 0) (h2 : ¬ n ≤ r + 1) :
    readExactAtRun (.ok n :: rest) (r + 1) p
      = (.panicked, [(r + 1, p, .ok n)]) := by
  simp [readExactAtRun, h1, h2]

theorem readExactAtRun_intr (rest : List ReadOutcome) (r p : Nat) :
    readExactAtRun (.err .interrupted :: rest) (r + 1) p
      = ((readExactAtRun rest (r + 1) p).1,
          (r + 1, p, .err .interrupted) :: (readExactAtRun rest (r + 1) p).2) := rfl

theorem readExactAtRun_err (rest : List ReadOutcome) (r p : Nat) (k : ErrKind)
    (h : k ≠ .interrupted) :
    readExactAtRun (.err k :: rest) (r + 1) p
      = (.failed k, [(r + 1, p, .err k)]) := by
  cases k <;> first | rfl | exact absurd rfl h

theorem hasZeroRead_nil : hasZeroRead [] = false := rfl
theorem hasEofErr_nil : hasEofErr [] = false := rfl
theorem hasZeroRead_cons_ok (r n : Nat) (tr : List (Nat × ReadOutcome)) :
    hasZeroRead ((r, .ok n) :: tr) = (decide (n = 0) || hasZeroRead tr) := by
  simp [hasZeroRead]
theorem hasZeroRead_cons_err (r : Nat) (k : ErrKind) (tr : List (Nat × ReadOutcome)) :
    hasZeroRead ((r, .err k) :: tr) = hasZeroRead tr := by
  simp [hasZeroRead]
theorem hasEofErr_cons_ok (r n : Nat) (tr : List (Nat × ReadOutcome)) :
    hasEofErr ((r, .ok n) :: tr) = hasEofErr tr := by
  simp [hasEofErr]
theorem hasEofErr_cons_err (r : Nat) (k : ErrKind) (tr : List (Nat × ReadOutcome)) :
    hasEofErr ((r, .err k) :: tr) = (decide (k = .unexpectedEof) || hasEofErr tr) := by
  simp [hasEofErr]
theorem okLens_nil : okLens [] = [] := rfl

theorem okLens_cons_ok (r n : Nat) (tr : List (Nat × ReadOutcome)) :
    okLens ((r, .ok n) :: tr) = n :: okLens tr := rfl

theorem okLens_cons_err (r : Nat) (k : ErrKind) (tr : List (Nat × ReadOutcome)) :
    okLens ((r, .err k) :: tr) = okLens tr := rfl

theorem readExactRun_iffs (script : List ReadOutcome) : ∀ L : Nat,
    ((readExactRun script L).1 = .success ↔ (okLens (readExactRun script L).2).sum = L)
  ∧ ((readExactRun script L).1 = .failed .unexpectedEof ↔
      (hasZeroRead (readExactRun script L).2 = true
        ∨ hasEofErr (readExactRun script L).2 = true)) := by
  induction script with
  | nil =>
    intro L
    cases L with
    | zero => simp [readExactRun_zero, okLens_nil, hasZeroRead_nil, hasEofErr_nil]
    | succ r => simp [readExactRun_nil_succ, okLens_nil, hasZeroRead_nil, hasEofErr_nil]
  | cons o rest ih =>
    intro L
    cases L with
    | zero => simp [readExactRun_zero, okLens_nil, hasZeroRead_nil, hasEofErr_nil]
    | succ r =>
      cases o with
      | ok n =>
        by_cases h1 : n = 0
        · subst h1
          simp [readExactRun_ok_zero, okLens_cons_ok, okLens_nil,
            hasZeroRead_cons_ok, hasEofErr_cons_ok, hasZeroRead_nil, hasEofErr_nil]
        · by_cases h2 : n ≤ r + 1
          · rw [readExactRun_ok_le rest n r h1 h2]
            simp only [okLens_cons_ok, List.sum_cons,
              hasZeroRead_cons_ok, hasEofErr_cons_ok, Bool.or_eq_true,
              decide_eq_true_eq, h1, false_or]
            constructor
            · rw [(ih (r + 1 - n)).1]
              omega
            · rw [(ih (r + 1 - n)).2]
          · rw [readExactRun_ok_gt rest n r h1 h2]
            simp [okLens_cons_ok, okLens_nil, hasZeroRead_cons_ok, hasEofErr_cons_ok,
              hasZeroRead_nil, hasEofErr_nil, h1]
            omega
      | err k =>
        by_cases hk : k = ErrKind.interrupted
        · subst hk
          rw [readExactRun_intr]
          rw [okLens_cons_err, hasZeroRead_cons_err, hasEofErr_cons_err]
          simp only [Bool.or_eq_true, decide_eq_true_eq]
          constructor
          · rw [(ih (r + 1)).1]
          · rw [(ih (r + 1)).2]
            constructor
            · tauto
            · rintro (h | h | h)
              · tauto
              · exact absurd h (by decide)
              · tauto
        · rw [readExactRun_err rest r k hk]
          rw [okLens_cons_err, hasZeroRead_cons_err, hasEofErr_cons_err]
          constructor
          · simp [okLens_nil]
          · simp [hasZeroRead_nil, hasEofErr_nil]

theorem readExactRun_head (script : List ReadOutcome) (r : Nat)
    (e : Nat × ReadOutcome) (tl : List (Nat × ReadOutcome))
    (h : (readExactRun script (r + 1)).2 = e :: tl) : e.1 = r + 1 := by
  cases script with
  | nil => simp [readExactRun_nil_succ] at h
  | cons o rest =>
    cases o with
    | ok n =>
      by_cases h1 : n = 0
      · subst h1
        rw [readExactRun_ok_zero] at h
        injection h with h1 _
        rw [← h1]
      · by_cases h2 : n ≤ r + 1
        · rw [readExactRun_ok_le rest n r h1 h2] at h
          injection h with h1 _
          rw [← h1]
        · rw [readExactRun_ok_gt rest n r h1 h2] at h
          injection h with h1 _
          rw [← h1]
    | err k =>
      by_cases hk : k = ErrKind.interrupted
      · subst hk
        rw [readExactRun_intr] at h
        injection h with h1 _
        rw [← h1]
      · rw [readExactRun_err rest r k hk] at h
        injection h with h1 _
        rw [← h1]

theorem retryUnchanged_nil : retryUnchanged [] = true := rfl

theorem retryUnchanged_single (e : Nat × ReadOutcome) : retryUnchanged [e] = true := by
  rcases e with ⟨r, o⟩
  cases o with
  | ok n => rfl
  | err k => cases k <;> rfl

theorem retryUnchanged_cons_ok (r n : Nat) (tl : List (Nat × ReadOutcome)) :
    retryUnchanged ((r, .ok n) :: tl) = retryUnchanged tl := by
  cases tl <;> rfl

theorem retryUnchanged_cons_err (r : Nat) (k : ErrKind)
    (tl : List (Nat × ReadOutcome)) (hk : k ≠ .interrupted) :
    retryUnchanged ((r, .err k) :: tl) = retryUnchanged tl := by
  cases k <;> first | (cases tl <;> rfl) | exact absurd rfl hk

theorem retryUnchanged_intr_cons (r : Nat) (e : Nat × ReadOutcome)
    (tl : List (Nat × ReadOutcome)) :
    retryUnchanged ((r, .err .interrupted) :: e :: tl)
      = ((e.1 == r) && retryUnchanged (e :: tl)) := rfl

theorem readExactRun_retry (script : List ReadOutcome) : ∀ L : Nat,
    retryUnchanged (readExactRun script L).2 = true := by
  induction script with
  | nil =>
    intro L
    cases L <;> simp [readExactRun_zero, readExactRun_nil_succ, retryUnchanged_nil]
  | cons o rest ih =>
    intro L
    cases L with
    | zero => simp [readExactRun_zero, retryUnchanged_nil]
    | succ r =>
      cases o with
      | ok n =>
        by_cases h1 : n = 0
        · subst h1
          rw [readExactRun_ok_zero]
          exact retryUnchanged_single _
        · by_cases h2 : n ≤ r + 1
          · rw [readExactRun_ok_le rest n r h1 h2]
            dsimp only
            rw [retryUnchanged_cons_ok]
            exact ih _
          · rw [readExactRun_ok_gt rest n r h1 h2]
            exact retryUnchanged_single _
      | err k =>
        by_cases hk : k = ErrKind.interrupted
        · subst hk
          rw [readExactRun_intr]
          dsimp only
          rcases htr : (readExactRun rest (r + 1)).2 with _ | ⟨e, tl⟩
          · exact retryUnchanged_single _
          · rw [retryUnchanged_intr_cons]
            have he : e.1 = r + 1 := readExactRun_head rest r e tl htr
            have ht : retryUnchanged (e :: tl) = true := by
              rw [← htr]; exact ih (r + 1)
            simp [he, ht]
        · rw [readExactRun_err rest r k hk]
          exact retryUnchanged_single _

theorem readExactRun_no_intr (script : List ReadOutcome) : ∀ L : Nat,
    (readExactRun script L).1 ≠ .failed .interrupted := by
  induction script with
  | nil =>
    intro L
    cases L <;> simp [readExactRun_zero, readExactRun_nil_succ]
  | cons o rest ih =>
    intro L
    cases L with
    | zero => simp [readExactRun_zero]
    | succ r =>
      cases o with
      | ok n =>
        by_cases h1 : n = 0
        · subst h1
          rw [readExactRun_ok_zero]
          simp
        · by_cases h2 : n ≤ r + 1
          · rw [readExactRun_ok_le rest n r h1 h2]
            exact ih _
          · rw [readExactRun_ok_gt rest n r h1 h2]
            simp
      | err k =>
        by_cases hk : k = ErrKind.interrupted
        · subst hk
          rw [readExactRun_intr]
          exact ih _
        · rw [readExactRun_err rest r k hk]
          simp [hk]

theorem readExactAtRun_head (script : List ReadOutcome) (r p : Nat)
    (e : Nat × Nat × ReadOutcome) (tl : List (Nat × Nat × ReadOutcome))
    (h : (readExactAtRun script (r + 1) p).2 = e :: tl) :
    e.1 = r + 1 ∧ e.2.1 = p := by
  cases script with
  | nil => simp [readExactAtRun_nil_succ] at h
  | cons o rest =>
    cases o with
    | ok n =>
      by_cases h1 : n = 0
      · subst h1
        rw [readExactAtRun_ok_zero] at h
        injection h with h1 _
        rw [← h1]
        exact ⟨rfl, rfl⟩
      · by_cases h2 : n ≤ r + 1
        · rw [readExactAtRun_ok_le rest n r p h1 h2] at h
          injection h with h1 _
          rw [← h1]
          exact ⟨rfl, rfl⟩
        · rw [readExactAtRun_ok_gt rest n r p h1 h2] at h
          injection h with h1 _
          rw [← h1]
          exact ⟨rfl, rfl⟩
    | err k =>
      by_cases hk : k = ErrKind.interrupted
      · subst hk
        rw [readExactAtRun_intr] at h
        injection h with h1 _
        rw [← h1]
        exact ⟨rfl, rfl⟩
      · rw [readExactAtRun_err rest r p k hk] at h
        injection h with h1 _
        rw [← h1]
        exact ⟨rfl, rfl⟩

theorem retryUnchangedAt_nil : retryUnchangedAt [] = true := rfl

theorem retryUnchangedAt_single (e : Nat × Nat × ReadOutcome) :
    retryUnchangedAt [e] = true := by
  rcases e with ⟨r, p, o⟩
  cases o with
  | ok n => rfl
  | err k => cases k <;> rfl

theorem retryUnchangedAt_cons_ok (r p n : Nat) (tl : List (Nat × Nat × ReadOutcome)) :
    retryUnchangedAt ((r, p, .ok n) :: tl) = retryUnchangedAt tl := by
  cases tl <;> rfl

theorem retryUnchangedAt_cons_err (r p : Nat) (k : ErrKind)
    (tl : List (Nat × Nat × ReadOutcome)) (hk : k ≠ .interrupted) :
    retryUnchangedAt ((r, p, .err k) :: tl) = retryUnchangedAt tl := by
  cases k <;> first | (cases tl <;> rfl) | exact absurd rfl hk

theorem retryUnchangedAt_intr_cons (r p : Nat) (e : Nat × Nat × ReadOutcome)
    (tl : List (Nat × Nat × ReadOutcome)) :
    retryUnchangedAt ((r, p, .err .interrupted) :: e :: tl)
      = ((e.1 == r) && (e.2.1 == p) && retryUnchangedAt (e :: tl)) := rfl

theorem readExactAtRun_retry (script : List ReadOutcome) : ∀ (L p : Nat),
    retryUnchangedAt (readExactAtRun script L p).2 = true := by
  induction script with
  | nil =>
    intro L p
    cases L <;> simp [readExactAtRun_zero, readExactAtRun_nil_succ, retryUnchangedAt_nil]
  | cons o rest ih =>
    intro L p
    cases L with
    | zero => simp [readExactAtRun_zero, retryUnchangedAt_nil]
    | succ r =>
      cases o with
      | ok n =>
        by_cases h1 : n = 0
        · subst h1
          rw [readExactAtRun_ok_zero]
          exact retryUnchangedAt_single _
        · by_cases h2 : n ≤ r + 1
          · rw [readExactAtRun_ok_le rest n r p h1 h2]
            dsimp only
            rw [retryUnchangedAt_cons_ok]
            exact ih _ _
          · rw [readExactAtRun_ok_gt rest n r p h1 h2]
            exact retryUnchangedAt_single _
      | err k =>
        by_cases hk : k = ErrKind.interrupted
        · subst hk
          rw [readExactAtRun_intr]
          dsimp only
          rcases htr : (readExactAtRun rest (r + 1) p).2 with _ | ⟨e, tl⟩
          · exact retryUnchangedAt_single _
          · rw [retryUnchangedAt_intr_cons]
            have he := readExactAtRun_head rest r p e tl htr
            have ht : retryUnchangedAt (e :: tl) = true := by
              rw [← htr]; exact ih (r + 1) p
            simp [he.1, he.2, ht]
        · rw [readExactAtRun_err rest r p k hk]
          exact retryUnchangedAt_single _

theorem readExactAtRun_no_intr (script : List ReadOutcome) : ∀ (L p : Nat),
    (readExactAtRun script L p).1 ≠ .failed .interrupted := by
  induction script with
  | nil =>
    intro L p
    cases L <;> simp [readExactAtRun_zero, readExactAtRun_nil_succ]
  | cons o rest ih =>
    intro L p
    cases L with
    | zero => simp [readExactAtRun_zero]
    | succ r =>
      cases o with
      | ok n =>
        by_cases h1 : n = 0
        · subst h1
          rw [readExactAtRun_ok_zero]
          simp
        · by_cases h2 : n ≤ r + 1
          · rw [readExactAtRun_ok_le rest n r p h1 h2]
            exact ih _ _
          · rw [readExactAtRun_ok_gt rest n r p h1 h2]
            simp
      | err k =>
        by_cases hk : k = ErrKind.interrupted
        · subst hk
          rw [readExactAtRun_intr]
          exact ih _ _
        · rw [readExactAtRun_err rest r p k hk]
          simp [hk]

theorem okCalls_nil : okCalls [] = [] := rfl

theorem okCalls_cons_ok (r p n : Nat) (tr : List (Nat × Nat × ReadOutcome)) :
    okCalls ((r, p, .ok n) :: tr) = (p, n) :: okCalls tr := rfl

theorem okCalls_cons_err (r p : Nat) (k : ErrKind)
    (tr : List (Nat × Nat × ReadOutcome)) :
    okCalls ((r, p, .err k) :: tr) = okCalls tr := rfl

theorem readExactAtRun_posSpec (script : List ReadOutcome) : ∀ (L p : Nat),
    ((okCalls (readExactAtRun script L p).2).map Prod.fst
      = posSeq p ((okCalls (readExactAtRun script L p).2).map Prod.snd))
  ∧ ((readExactAtRun script L p).1 = .success →
      ((okCalls (readExactAtRun script L p).2).map Prod.snd).sum = L
      ∧ ∀ n ∈ (okCalls (readExactAtRun script L p).2).map Prod.snd, 0 < n) := by
  induction script with
  | nil =>
    intro L p
    cases L with
    | zero => simp [readExactAtRun_zero, okCalls_nil, posSeq]
    | succ r => simp [readExactAtRun_nil_succ, okCalls_nil, posSeq]
  | cons o rest ih =>
    intro L p
    cases L with
    | zero => simp [readExactAtRun_zero, okCalls_nil, posSeq]
    | succ r =>
      cases o with
      | ok n =>
        by_cases h1 : n = 0
        · subst h1
          rw [readExactAtRun_ok_zero]
          simp [okCalls_cons_ok, okCalls_nil, posSeq]
        · by_cases h2 : n ≤ r + 1
          · rw [readExactAtRun_ok_le rest n r p h1 h2]
            dsimp only
            rw [okCalls_cons_ok]
            simp only [List.map_cons, List.sum_cons, posSeq]
            constructor
            · rw [(ih (r + 1 - n) (p + n)).1]
            · intro hs
              have hrec := (ih (r + 1 - n) (p + n)).2 hs
              have hsum := hrec.1
              constructor
              · omega
              · intro m hm
                rcases List.mem_cons.mp hm with hm | hm
                · subst hm
                  omega
                · exact hrec.2 m hm
          · rw [readExactAtRun_ok_gt rest n r p h1 h2]
            dsimp only
            rw [okCalls_cons_ok, okCalls_nil]
            constructor
            · simp [posSeq]
            · intro hs
              simp at hs
      | err k =>
        by_cases hk : k = ErrKind.interrupted
        · subst hk
          rw [readExactAtRun_intr]
          dsimp only
          rw [okCalls_cons_err]
          exact ih (r + 1) p
        · rw [readExactAtRun_err rest r p k hk]
          simp [okCalls_cons_err, okCalls_nil, posSeq, hk]

/-- C1 (code bug): on a successful `accept` completion, the returned peer
address is the pre-submission (zeroed) copy of the address buffer, not the
kernel-filled contents: at raw result 5 with the kernel writing peer bytes
`[2, 0, 31, 144, 127, 0, 0, 1]` and length 16, the resolved value carries
the all-zero 128-byte storage with length 128, which differs from the
kernel-filled buffer. -/
theorem accept_addr_ignores_kernel :
    acceptOp .ok ⟨5, [2, 0, 31, 144, 127, 0, 0, 1], 16⟩
      = (.ok (5, (List.replicate SOCKADDR_STORAGE_LEN 0, SOCKADDR_STORAGE_LEN)), true)
  ∧ (List.replicate SOCKADDR_STORAGE_LEN 0, SOCKADDR_STORAGE_LEN)
      ≠ kernelFilledAddr ⟨5, [2, 0, 31, 144, 127, 0, 0, 1], 16⟩ := by
  constructor
  · rfl
  · decide

/-- C2 counterexample: with a 1-byte buffer and an underlying read that
fails with an error of kind `UnexpectedEof`, `read_exact` returns an error
of kind `UnexpectedEof` although no sub-read returned 0, so the claimed
biconditional is false at this input. -/
theorem read_exact_eof_iff_counterexample :
    ¬ (((readExactRun [.err .unexpectedEof] 1).1 = .failed .unexpectedEof)
        ↔ hasZeroRead (readExactRun [.err .unexpectedEof] 1).2 = true) := by
  decide

/-- C2 (amended): for every non-empty buffer, `read_exact` succeeds iff the
sub-read lengths it observes sum exactly to the buffer length, and it
returns an error of kind `UnexpectedEof` iff some sub-read returned 0 while
bytes remained unfilled or a sub-read itself failed with an error of kind
`UnexpectedEof` (which the loop propagates). -/
theorem read_exact_success_and_eof_iff (script : List ReadOutcome) (L : Nat)
    (h : 0 < L) :
    ((readExactRun script L).1 = .success
      ↔ (okLens (readExactRun script L).2).sum = L)
  ∧ ((readExactRun script L).1 = .failed .unexpectedEof ↔
      (hasZeroRead (readExactRun script L).2 = true
        ∨ hasEofErr (readExactRun script L).2 = true)) :=
  readExactRun_iffs script L

theorem read_exact_success_and_eof_iff_witness :
    (0 < 2)
  ∧ (((readExactRun [.ok 2] 2).1 = .success
      ↔ (okLens (readExactRun [.ok 2] 2).2).sum = 2)
  ∧ ((readExactRun [.ok 2] 2).1 = .failed .unexpectedEof ↔
      (hasZeroRead (readExactRun [.ok 2] 2).2 = true
        ∨ hasEofErr (readExactRun [.ok 2] 2).2 = true))) :=
  ⟨by decide, read_exact_success_and_eof_iff [.ok 2] 2 (by decide)⟩

/-- C3: a source yielding 3 bytes, then 2 bytes, then 0 bytes into a 6-byte
`read_exact` destination returns `UnexpectedEof`, with the first 5 bytes of
the destination set to the delivered bytes and the 6th byte left at its
prior value. -/
theorem read_exact_scenario_a (a b c d e x0 x1 x2 x3 x4 x5 : Nat) :
    readExactBytes [.chunk [a, b, c], .chunk [d, e], .chunk []]
        [x0, x1, x2, x3, x4, x5] 0
      = (.failed .unexpectedEof, [a, b, c, d, e, x5]) := rfl

/-- C4: both exact-read loops absorb every `Interrupted` error internally
(the loop's result is never an `Interrupted` failure) and retry it at an
unchanged offset: in the trace of issued sub-reads, the sub-read following a
consumed `Interrupted` outcome sees the same unfilled window (and, for
`read_exact_at`, the same position counter), so no bytes are lost or
duplicated across a retry. -/
theorem read_exact_interrupted_absorbed (script : List ReadOutcome) (L p : Nat) :
    (readExactRun script L).1 ≠ .failed .interrupted
  ∧ retryUnchanged (readExactRun script L).2 = true
  ∧ (readExactAtRun script L p).1 ≠ .failed .interrupted
  ∧ retryUnchangedAt (readExactAtRun script L p).2 = true :=
  ⟨readExactRun_no_intr script L, readExactRun_retry script L,
    readExactAtRun_no_intr script L p, readExactAtRun_retry script L p⟩

/-- C5: `read_exact_at` starting at position `p` on an `L`-byte buffer
issues its `Ok`-returning sub-reads at positions `p, p + n1, p + n1 + n2, …`
where the `nᵢ` are the byte counts those sub-reads return (the position
advances only by bytes actually transferred), and on success the counts are
positive and sum to `L`. -/
theorem read_exact_at_positions (script : List ReadOutcome) (L p : Nat) :
    ((okCalls (readExactAtRun script L p).2).map Prod.fst
      = posSeq p ((okCalls (readExactAtRun script L p).2).map Prod.snd))
  ∧ ((readExactAtRun script L p).1 = .success →
      ((okCalls (readExactAtRun script L p).2).map Prod.snd).sum = L
      ∧ ∀ n ∈ (okCalls (readExactAtRun script L p).2).map Prod.snd, 0 < n) :=
  readExactAtRun_posSpec script L p

theorem read_exact_at_positions_witness :
    ((okCalls (readExactAtRun [.ok 3, .ok 2] 5 100).2).map Prod.snd).sum = 5 :=
  ((read_exact_at_positions [.ok 3, .ok 2] 5 100).2 (by decide)).1

/-- C6: `open` on a path containing an embedded NUL byte fails with
`InvalidFilename` and submits nothing to the driver, and every descriptor it
does submit (for NUL-free paths) carries the path in null-terminated byte
form. -/
theorem open_embedded_nul (path : List Nat) (flags : Int) (mode : Nat)
    (s : SubmitResult) (kres : Int) :
    (0 ∈ path → openOp path flags mode s kres = (.error .invalidFilename, [], false))
  ∧ (∀ d ∈ (openOp path flags mode s kres).2.1, d.pathBytes = path ++ [0]) := by
  constructor
  · intro h
    simp [openOp, cstringNew, h]
  · intro d hd
    by_cases h : 0 ∈ path
    · simp [openOp, cstringNew, h] at hd
    · cases s with
      | exhausted => simp [openOp, cstringNew, h] at hd
      | ok =>
        simp [openOp, cstringNew, h] at hd
        rw [hd]

theorem open_embedded_nul_witness :
    openOp [104, 0, 105] 1 420 .ok 3 = (.error .invalidFilename, [], false) :=
  (open_embedded_nul [104, 0, 105] 1 420 .ok 3).1 (by decide)

/-- C7: when `submit` fails with `ResourceExhausted`, every operation
constructor propagates the error synchronously: the future resolves to the
error with the `.await` never reached (no suspension, no `Pending` state),
and `open` additionally records no submission. -/
theorem resource_exhausted_synchronous (fd : Int) (bufLen : Nat) (kres : Int)
    (addr kstat path : List Nat) (flags : Int) (mode : Nat) (k : KernelAccept) :
    readOpRun fd bufLen .exhausted kres = (.error .resourceExhausted, false)
  ∧ writeOpRun fd bufLen .exhausted kres = (.error .resourceExhausted, false)
  ∧ connectOpRun fd addr .exhausted kres = (.error .resourceExhausted, false)
  ∧ closeOpRun fd .exhausted kres = (.error .resourceExhausted, false)
  ∧ fsyncOpRun fd .exhausted kres = (.error .resourceExhausted, false)
  ∧ fdatasyncOpRun fd .exhausted kres = (.error .resourceExhausted, false)
  ∧ fstatOpRun fd kstat .exhausted kres = (.error .resourceExhausted, false)
  ∧ acceptOp .exhausted k = (.error .resourceExhausted, false)
  ∧ (0 ∉ path →
      openOp path flags mode .exhausted kres
        = (.error .resourceExhausted, [], false)) := by
  refine ⟨rfl, rfl, rfl, rfl, rfl, rfl, rfl, rfl, ?_⟩
  intro h
  simp [openOp, cstringNew, h]

theorem resource_exhausted_synchronous_witness :
    openOp [104] 1 420 .exhausted 3 = (.error .resourceExhausted, [], false) :=
  (resource_exhausted_synchronous 4 10 3 [1] [2] [104] 1 420
    ⟨5, [2], 16⟩).2.2.2.2.2.2.2.2 (by decide)

/-- C10: with an empty destination buffer both exact-read loops return
success immediately and issue no sub-read at all, whatever the underlying
reader would have produced. -/
theorem read_exact_empty_buffer (script : List ReadOutcome)
    (bscript : List ReadData) (p : Nat) :
    readExactRun script 0 = (.success, [])
  ∧ readExactAtRun script 0 p = (.success, [])
  ∧ readExactBytes bscript [] 0 = (.success, []) :=
  ⟨readExactRun_zero script, readExactAtRun_zero script p, by
    cases bscript with
    | nil => rfl
    | cons o rest =>
      cases o with
      | chunk d => rfl
      | err k => cases k <;> rfl⟩

theorem parseLoop_numThreads (attrs : List (String × LitVal)) :
    ∀ opts o : Options, Options.parseLoop opts attrs = some o →
      (o.numThreads.isSome = true
        ↔ (opts.numThreads.isSome = true ∨ ∃ e ∈ attrs, e.1 = "num_threads")) := by
  induction attrs with
  | nil =>
    intro opts o h
    simp [Options.parseLoop] at h
    subst h
    simp
  | cons a rest ih =>
    intro opts o h
    rcases a with ⟨name, lit⟩
    by_cases hn : name = "num_threads"
    · subst hn
      cases lit with
      | int v =>
        simp only [Options.parseLoop, if_pos rfl] at h
        have hrec := ih _ _ h
        simp only [Option.isSome_some, true_or, iff_true] at hrec
        constructor
        · intro _
          right
          exact ⟨("num_threads", .int v), List.mem_cons_self _ _, rfl⟩
        · intro _
          exact hrec
      | nonInt =>
        simp [Options.parseLoop] at h
    · simp [Options.parseLoop, hn] at h

/-- C9: the entry-point rewriting produces a non-async function whose body
builds `Builder::new()` — extended with `.num_threads(v)` exactly when the
attribute list supplies that option — calls `.build()` on it and passes the
original body, wrapped in an `async` block, to `.block_on`; the test variant
(and only it) carries the ambient `#[test]` attribute. -/
theorem transform_entry_point (attrs : List (String × LitVal)) (item : ItemFn)
    (is_test : Bool) (out : FnOut)
    (h : transform attrs item is_test = some out) :
    out.isAsync = false
  ∧ out.hasTestAttr = is_test
  ∧ (∃ rt, out.body = .buildBlockOn rt (.asyncBlock item.body))
  ∧ ((∃ v, out.body
        = .buildBlockOn (.numThreads .builderNew v) (.asyncBlock item.body))
      ↔ ∃ e ∈ attrs, e.1 = "num_threads") := by
  unfold transform at h
  rcases hp : Options.parse attrs with _ | opts
  · rw [hp] at h
    simp at h
  · rw [hp] at h
    simp only [Option.some.injEq] at h
    subst h
    have hpl := parseLoop_numThreads attrs _ _ hp
    simp only [Option.isSome_none, Bool.false_eq_true, false_or] at hpl
    refine ⟨rfl, rfl, ?_, ?_⟩
    · cases hnt : opts.numThreads with
      | none => exact ⟨.builderNew, by simp [hnt]⟩
      | some v => exact ⟨.numThreads .builderNew v, by simp [hnt]⟩
    · rw [← hpl]
      cases hnt : opts.numThreads with
      | none => simp [hnt]
      | some v => simp [hnt]

theorem transform_entry_point_witness :
    (FnOut.mk true false
        (.buildBlockOn (.numThreads .builderNew 4) (.asyncBlock 7))).isAsync = false
  ∧ (FnOut.mk true false
        (.buildBlockOn (.numThreads .builderNew 4) (.asyncBlock 7))).hasTestAttr = true
  ∧ (∃ rt, (FnOut.mk true false
        (.buildBlockOn (.numThreads .builderNew 4) (.asyncBlock 7))).body
          = .buildBlockOn rt (.asyncBlock (ItemFn.mk true 7).body))
  ∧ ((∃ v, (FnOut.mk true false
        (.buildBlockOn (.numThreads .builderNew 4) (.asyncBlock 7))).body
          = .buildBlockOn (.numThreads .builderNew v)
              (.asyncBlock (ItemFn.mk true 7).body))
      ↔ ∃ e ∈ [("num_threads", LitVal.int 4)], e.1 = "num_threads") :=
  transform_entry_point [("num_threads", .int 4)] (ItemFn.mk true 7) true
    (FnOut.mk true false
      (.buildBlockOn (.numThreads .builderNew 4) (.asyncBlock 7))) rfl

end Photonio
